import Mathlib

/-!
Verification development for the ExpertRecSystem repository.

We shallowly embed the parts of the code that the specification's claims
are about:

* `system/collaboration.py` — `CollaborationSystem.forward`, `reset`,
  `recall`, `display`, `add_description`, `add_chat_history`;
* `system/base.py` — `System.reset`, `System.finish`, `System.is_finished`;
* `utils/faiss.py` — `get_project_embedding`, `find_similar_experts`.

Modelling conventions:

* Python exceptions are modelled with `Except PyError`; a Python function
  that cannot raise is total.
* External collaborators (the HuggingFace tokenizer/model, the FAISS index,
  and each LLM-backed agent) are opaque functions carried in an `Env`
  record.  Embedding vectors and similarity scores are floating-point
  numbers in the code; floats are not shallowly embeddable, so vectors are
  `List Int` and scores are `Int`, an abstract ordered scalar — every
  property proved about them is purely order- and structure-theoretic.
* `index.search` returns two equal-length row arrays (scores, ids); we
  model the pair of rows as one list of `(score, id)` pairs, the equal
  length being guaranteed by the API shape.
* `json.loads(self.recommender(...))` — the agent's textual output composed
  with JSON parsing — is modelled as one opaque function producing the
  parsed dictionary; a transport/parse failure is outside the claims here.
* Python dicts with string keys are modelled positionally: the Recommender
  output elements are records with `Option` fields (`none` = key absent),
  and the `experts_dict` comprehension is a last-occurrence-wins lookup.
-/

namespace ExpertRec

/-- Python exceptions that the embedded code can raise. -/
inductive PyError where
  | indexError
  | keyError
  | typeError
  | assertionError
  | notImplementedError (msg : String)
deriving Repr, DecidableEq

/-- A row of the expert table (`self.expert_data`, columns used by
`CollaborationSystem.recall`). -/
structure ExpertRow where
  expert_id : Nat
  expert_name : String
  specialist : String
  description : String
deriving Repr, DecidableEq

/-- A candidate-expert dict built by `CollaborationSystem.recall`
(collaboration.py lines 193-199). -/
structure ExpertInfo where
  expert_id : Nat
  expert_name : String
  specialist : String
  description : String
  similarity : Int
deriving Repr, DecidableEq

/-- One element of the Recommender's `sorted_experts` array.  Each field is
`Option` because the JSON object may lack the corresponding key; `none`
models an absent key. -/
structure RankedEntry where
  rank : Option Int
  name : Option String
  specialist : Option String
  description : Option String
deriving Repr, DecidableEq

/-- The parsed Recommender output.  `sorted_experts = none` models a JSON
object without the top-level key `sorted_experts`. -/
structure RecResults where
  sorted_experts : Option (List RankedEntry)
deriving Repr, DecidableEq

/-- Python `l[i]`: `IndexError` when out of range. -/
def pyGet (l : List α) (i : Nat) : Except PyError α :=
  match l.get? i with
  | some x => .ok x
  | none => .error .indexError

/-- The f-string template of `CollaborationSystem.display`
(collaboration.py line 223). -/
def formatEntry (rank : Int) (name specialist : String) : String :=
  "**排名**: " ++ toString rank ++ ", **姓名**: " ++ name ++
    ", **专业**: " ++ specialist ++ "  \n"

/-- One iteration of the `display` loop: format the element if all of
`rank`, `name`, `specialist` are present, otherwise raise
`NotImplementedError` (collaboration.py lines 220-228). -/
def displayEntry (e : RankedEntry) : Except PyError String :=
  match e.rank, e.name, e.specialist with
  | some r, some n, some s => .ok (formatEntry r n s)
  | _, _, _ =>
      .error (.notImplementedError
        "There is no \x27rank\x27、\x27name\x27 or \x27specialist\x27 in results")

/-- The `display` loop over `results["sorted_experts"]`: messages are
accumulated in order, and the first malformed element raises. -/
def displayList : List RankedEntry → Except PyError (List String)
  | [] => .ok []
  | e :: es => do
      let m ← displayEntry e
      let ms ← displayList es
      pure (m :: ms)

/-- `CollaborationSystem.display` (collaboration.py lines 205-232): raises
`NotImplementedError` when the key `sorted_experts` is absent, otherwise
formats every element, raising on the first element missing a required
key.  (The `self.log` side effect is dropped.) -/
def display (results : RecResults) : Except PyError (List String) :=
  match results.sorted_experts with
  | none =>
      .error (.notImplementedError "There is no \x27sorted_experts\x27 in results")
  | some es => displayList es

/-- Lookup in `experts_dict = {e["expert_name"]: e["description"] for e in
experts}`: on duplicate keys a Python dict comprehension keeps the value of
the last occurrence. -/
def dictLookup (experts : List ExpertInfo) (n : String) : Option String :=
  (experts.reverse.find? (fun e => e.expert_name == n)).map (·.description)

/-- One iteration of the `add_description` loop (collaboration.py lines
252-256): `expert_result["name"]` raises `KeyError` when absent; when the
name is a key of `experts_dict` the description is written into the
element, otherwise the element is left unchanged — there is no membership
check and no error for an unknown name. -/
def addDescEntry (experts : List ExpertInfo) (e : RankedEntry) :
    Except PyError RankedEntry :=
  match e.name with
  | none => .error .keyError
  | some n =>
      match dictLookup experts n with
      | some d => .ok { e with description := some d }
      | none => .ok e

/-- The `add_description` loop over the first `num` elements. -/
def addDescList (experts : List ExpertInfo) :
    List RankedEntry → Except PyError (List RankedEntry)
  | [] => .ok []
  | e :: es => do
      let e1 ← addDescEntry experts e
      let es1 ← addDescList experts es
      pure (e1 :: es1)

/-- `CollaborationSystem.add_description` (collaboration.py lines 234-257):
builds `experts_dict`, updates the first `num` elements of
`results["sorted_experts"]` in place, and returns that slice.  Accessing
the key `sorted_experts` raises `KeyError` when absent.  In the purely
functional model the in-place update and the returned slice coincide. -/
def add_description (experts : List ExpertInfo) (results : RecResults)
    (num : Nat) : Except PyError (List RankedEntry) :=
  match results.sorted_experts with
  | none => .error .keyError
  | some es => addDescList experts (es.take num)

/-- Total counterpart of `addDescEntry` used to state what the loop does to
a well-formed element. -/
def attachDesc (experts : List ExpertInfo) (e : RankedEntry) : RankedEntry :=
  match e.name.bind (dictLookup experts) with
  | some d => { e with description := some d }
  | none => e

/-- The mutable state of a `System`/`CollaborationSystem` instance that the
claims touch: `_chat_history` (a list of `(chat, role)` turns — `forward`
appends the raw `user_input` list as the chat), `scratchpad`, `finished`,
`answer`, and `finish_attr`, which models the instance attribute `finish`
created by the assignment `self.finish = True` in `System.finish`
(base.py line 82), shadowing the bound method of the same name. -/
structure SessionState where
  chat_history : List (List String × String)
  scratchpad : String
  finished : Bool
  answer : String
  finish_attr : Option Bool
deriving Repr, DecidableEq

/-- `CollaborationSystem.reset` (collaboration.py lines 124-135) on top of
`System.reset` (base.py lines 69-74): scratchpad, finished and answer are
reset unconditionally; `_chat_history` is emptied only when `clear` is
true.  (`init_answer` returns `""`; the `web_log` side effect is
dropped.) -/
def reset (clear : Bool) (s : SessionState) : SessionState :=
  let s1 := { s with scratchpad := "", finished := false, answer := "" }
  if clear then { s1 with chat_history := [] } else s1

/-- `CollaborationSystem.add_chat_history` (collaboration.py lines
137-145). -/
def add_chat_history (s : SessionState) (chat : List String) (role : String) :
    SessionState :=
  { s with chat_history := s.chat_history ++ [(chat, role)] }

/-- `System.is_finished` (base.py lines 76-77). -/
def is_finished (s : SessionState) : Bool :=
  s.finished

/-- A call of `System.finish` (base.py lines 79-83).  When the bound method
has already been shadowed by a previous call, `self.finish` is the boolean
`True` and calling it raises `TypeError`.  Otherwise the body runs: it sets
`answer`, builds the observation f-string, and assigns `True` to the
instance attribute `finish` — not to `finished`. -/
def callFinish (s : SessionState) (answer : String) :
    Except PyError (SessionState × String) :=
  match s.finish_attr with
  | some _ => .error .typeError
  | none =>
      let s1 := { s with answer := answer }
      let observation := "ÁĽľšłäśČÄŤŅį: " ++ s1.answer
      .ok ({ s1 with finish_attr := some true }, observation)

/-- `get_project_embedding` (faiss.py lines 20-46): tokenize (truncating),
run the model, take the first hidden-state vector, L2-normalize.  The
tokenizer, the model and the floating-point normalization are opaque
functions.  The body contains no validation and no raise statement, so the
function is total: it returns a vector for every input string. -/
def get_project_embedding (tokenize : String → List Int)
    (modelRun : List Int → List Int) (normalize : List Int → List Int)
    (text : String) : Except PyError (List Int) :=
  .ok (normalize (modelRun (tokenize text)))

/-- The opaque external collaborators of `CollaborationSystem`, plus the
expert table loaded at `init`. -/
structure Env where
  tokenize : String → List Int
  modelRun : List Int → List Int
  normalize : List Int → List Int
  search : List Int → Nat → List (Int × Nat)
  expertTable : List ExpertRow
  projectAnalyst : String → String → String
  recommend : String → List ExpertInfo → RecResults
  explain : String → List RankedEntry → String

/-- One row lookup of `recall` (collaboration.py lines 187-199):
`expert_data.iloc[i]` raises `IndexError` for an out-of-range position;
otherwise the four columns and the similarity score are packed into a
candidate dict. -/
def lookupRow (table : List ExpertRow) (hit : Int × Nat) :
    Except PyError ExpertInfo :=
  match table.get? hit.2 with
  | none => .error .indexError
  | some row =>
      .ok { expert_id := row.expert_id, expert_name := row.expert_name,
            specialist := row.specialist, description := row.description,
            similarity := hit.1 }

/-- The row-building loop of `recall` over the search hits, in order. -/
def recallRows (table : List ExpertRow) :
    List (Int × Nat) → Except PyError (List ExpertInfo)
  | [] => .ok []
  | h :: hs => do
      let r ← lookupRow table h
      let rs ← recallRows table hs
      pure (r :: rs)

/-- `CollaborationSystem.recall` (collaboration.py lines 173-203):
concatenate name and description with `":"`, embed, query the index with
`top_k`, and build the candidate list from the returned rows.  (The two
`self.log` side effects are dropped.) -/
def recallExperts (env : Env) (user_input : List String) (top_k : Nat) :
    Except PyError (List ExpertInfo) := do
  let a ← pyGet user_input 0
  let b ← pyGet user_input 1
  let emb ← get_project_embedding env.tokenize env.modelRun env.normalize
    (a ++ ":" ++ b)
  recallRows env.expertTable (env.search emb top_k)

/-- The external calls `forward` can make, recorded in order.  The
Explainer call carries the expert list it received. -/
inductive Call where
  | analystCall
  | embedCall
  | searchCall
  | recommenderCall
  | explainerCall (experts : List RankedEntry)
deriving Repr, DecidableEq

/-- The arity check of `forward` (collaboration.py lines 281-282):
`if len(user_input) != 2: assert "Project name and project information are
both needed."`.  The assert's condition is the string literal itself, and
Python deems a non-empty string truthy, so the assert can never fire: the
branch is a no-op and no input validation happens. -/
def arity_check (user_input : List String) : Except PyError Unit :=
  if user_input.length ≠ 2 then
    if "Project name and project information are both needed.".length ≠ 0 then
      .ok ()
    else
      .error .assertionError
  else
    .ok ()

/-- `CollaborationSystem.forward` (collaboration.py lines 259-297).
Returns the final state, the trace of external calls made, and either the
returned list of formatted strings or the exception that escaped.  Step by
step: read `self.chat_history` (no pipeline effect), run the no-op arity
check, `self.reset()` when `reset` — note `clear` defaults to false —
append the user turn, unpack `user_input` (an `IndexError` escapes here
when it has fewer than two elements, before any agent call), call the
ProjectAnalyst, `recall`, the Recommender (composed with `json.loads`),
`display`, `add_description`, the Explainer (result only logged), and
return `final_results[:num]`. -/
def forward (env : Env) (s : SessionState) (user_input : List String)
    (doReset : Bool) (top_k num : Nat) :
    SessionState × List Call × Except PyError (List String) :=
  match arity_check user_input with
  | .error e => (s, [], .error e)
  | .ok () =>
    let s1 := if doReset then reset false s else s
    let s2 := add_chat_history s1 user_input "user"
    match user_input.get? 0, user_input.get? 1 with
    | some a, some b =>
        let project := env.projectAnalyst a b
        match recallExperts env user_input top_k with
        | .error e =>
            (s2, [.analystCall, .embedCall, .searchCall], .error e)
        | .ok experts =>
            let results := env.recommend project experts
            match display results with
            | .error e =>
                (s2, [.analystCall, .embedCall, .searchCall,
                      .recommenderCall], .error e)
            | .ok final_results =>
                match add_description experts results num with
                | .error e =>
                    (s2, [.analystCall, .embedCall, .searchCall,
                          .recommenderCall], .error e)
                | .ok update_results =>
                    let _ := env.explain project update_results
                    (s2, [.analystCall, .embedCall, .searchCall,
                          .recommenderCall, .explainerCall update_results],
                     .ok (final_results.take num))
    | _, _ => (s2, [], .error .indexError)

/-- An entry is well formed when all three required keys are present. -/
def WFEntry (e : RankedEntry) : Prop :=
  e.rank.isSome = true ∧ e.name.isSome = true ∧ e.specialist.isSome = true

instance (e : RankedEntry) : Decidable (WFEntry e) := by
  unfold WFEntry; infer_instance

/-- A Recommender result is malformed when the `sorted_experts` key is
absent or some element lacks a required key. -/
def Malformed (results : RecResults) : Prop :=
  results.sorted_experts = none ∨
    ∃ es, results.sorted_experts = some es ∧ ∃ e ∈ es, ¬ WFEntry e

/-- Total counterpart of `displayEntry`, meaningful on well-formed
entries: the Recommender element rendered through the source's f-string
template. -/
def displayEntryTotal (e : RankedEntry) : String :=
  formatEntry (e.rank.getD 0) (e.name.getD "") (e.specialist.getD "")

/-- Total counterpart of `lookupRow`, meaningful when the row position is
in range. -/
def lookupRowTotal (table : List ExpertRow) (hit : Int × Nat) : ExpertInfo :=
  match table.get? hit.2 with
  | some row =>
      { expert_id := row.expert_id, expert_name := row.expert_name,
        specialist := row.specialist, description := row.description,
        similarity := hit.1 }
  | none =>
      { expert_id := 0, expert_name := "", specialist := "",
        description := "", similarity := hit.1 }

/-- The string template the specification claims for the returned
recommendation strings (spec §6 and the §8 scenario), written from the
spec's words for comparison with the source's `formatEntry`. -/
def specClaimedTemplate (rank : Int) (name specialist : String) : String :=
  "排名: " ++ toString rank ++ ", 姓名: " ++ name ++ ", 专业: " ++ specialist

/-- The spec's claimed template with the trailing `"  \n"` that the spec
permits as part of the chosen literal template. -/
def specClaimedTemplateNL (rank : Int) (name specialist : String) : String :=
  specClaimedTemplate rank name specialist ++ "  \n"

/-- A minimal concrete environment used to evaluate the model on concrete
inputs: empty index, empty expert table, constant agents. -/
def envTriv : Env where
  tokenize := fun _ => []
  modelRun := fun v => v
  normalize := fun v => v
  search := fun _ _ => []
  expertTable := []
  projectAnalyst := fun _ _ => "analysis"
  recommend := fun _ _ => { sorted_experts := some [] }
  explain := fun _ _ => "explanation"

/-- A fresh session state, as produced by construction-time
`reset(clear=True)`. -/
def st0 : SessionState :=
  { chat_history := [], scratchpad := "", finished := false, answer := "",
    finish_attr := none }

/-- A session state carrying one prior user turn and non-trivial scratch
fields, for evaluating what `reset` actually clears. -/
def sPrior : SessionState :=
  { chat_history := [(["x", "y"], "user")], scratchpad := "sp",
    finished := true, answer := "ans", finish_attr := none }

/-- A Recommender result whose single element lacks the `rank` key. -/
def resultsBad : RecResults :=
  { sorted_experts := some
      [{ rank := none, name := some "A", specialist := some "X",
         description := none }] }

/-- `envTriv` with a Recommender that always returns `resultsBad`. -/
def envBad : Env :=
  { envTriv with recommend := fun _ _ => resultsBad }

/-- The two well-formed ranked entries of the spec's §8 scenario. -/
def entriesAB : List RankedEntry :=
  [{ rank := some 1, name := some "A", specialist := some "X",
     description := none },
   { rank := some 2, name := some "B", specialist := some "Y",
     description := none }]

/-- A well-formed two-element Recommender result (the spec's §8
scenario). -/
def resultsAB : RecResults :=
  { sorted_experts := some entriesAB }

/-- `envTriv` with a Recommender that always returns `resultsAB`. -/
def envAB : Env :=
  { envTriv with recommend := fun _ _ => resultsAB }

/-- A one-candidate recall result: expert "A" only, so the ranked name "B"
matches no candidate. -/
def expertsW : List ExpertInfo :=
  [{ expert_id := 1, expert_name := "A", specialist := "X",
     description := "dA", similarity := 9 }]

/-- A two-row expert table for exercising `recall`. -/
def tableW : List ExpertRow :=
  [{ expert_id := 1, expert_name := "A", specialist := "X",
     description := "dA" },
   { expert_id := 2, expert_name := "B", specialist := "Y",
     description := "dB" }]

/-- `envTriv` with the two-row table and an index whose search returns the
two rows with descending scores. -/
def envRec5 : Env :=
  { envTriv with
      expertTable := tableW
      search := fun _ _ => [(9, 0), (5, 1)] }

/-- The arity check of `forward` accepts every input list: the assert is a
no-op because its condition is a non-empty string literal. -/
theorem arity_check_eq_ok (u : List String) : arity_check u = .ok () := by
  unfold arity_check
  split
  · rw [if_pos (by decide)]
  · rfl

/-- Whatever happens downstream, `forward` leaves the session state at the
value reached right after the user turn is appended. -/
theorem forward_state_eq (env : Env) (s : SessionState) (u : List String)
    (doReset : Bool) (top_k num : Nat) :
    (forward env s u doReset top_k num).1 =
      add_chat_history (if doReset then reset false s else s) u "user" := by
  unfold forward
  rw [arity_check_eq_ok]
  split
  · rename_i e heq
    cases heq
  · dsimp only
    split
    · split
      · rfl
      · split
        · rfl
        · split
          · rfl
          · rfl
    · rfl

/-- A well-formed element renders through the template. -/
theorem displayEntry_ok_of_wf (e : RankedEntry) (h : WFEntry e) :
    displayEntry e = .ok (displayEntryTotal e) := by
  obtain ⟨hr, hn, hs⟩ := h
  cases er : e.rank with
  | none => rw [er] at hr; cases hr
  | some r =>
    cases en : e.name with
    | none => rw [en] at hn; cases hn
    | some n =>
      cases es1 : e.specialist with
      | none => rw [es1] at hs; cases hs
      | some sp =>
        unfold displayEntry displayEntryTotal
        rw [er, en, es1]
        rfl

/-- An element missing a required key raises in the `display` loop. -/
theorem displayEntry_error_of_not_wf (e : RankedEntry) (h : ¬ WFEntry e) :
    displayEntry e = .error (.notImplementedError
      "There is no \x27rank\x27、\x27name\x27 or \x27specialist\x27 in results") := by
  unfold displayEntry
  cases er : e.rank <;> cases en : e.name <;> cases es1 : e.specialist <;>
    first
      | rfl
      | (exact absurd ⟨by rw [er]; rfl, by rw [en]; rfl, by rw [es1]; rfl⟩ h)

/-- On a list of well-formed elements the `display` loop succeeds and
returns exactly the per-element rendering, in order. -/
theorem displayList_ok_of_wf (es : List RankedEntry)
    (h : ∀ e ∈ es, WFEntry e) :
    displayList es = .ok (es.map displayEntryTotal) := by
  induction es with
  | nil => rfl
  | cons hd tl ih =>
    have hhd := displayEntry_ok_of_wf hd (h hd (by simp))
    have htl := ih (fun e he => h e (by simp [he]))
    show (displayEntry hd).bind _ = _
    rw [hhd, htl]
    rfl

/-- If some element of the list lacks a required key, the `display` loop
raises (at the first such element) and produces no list at all. -/
theorem displayList_error_of_malformed (es : List RankedEntry)
    (e : RankedEntry) (he : e ∈ es) (hbad : ¬ WFEntry e) :
    ∃ msg, displayList es = .error (.notImplementedError msg) := by
  induction es with
  | nil => cases he
  | cons hd tl ih =>
    by_cases hwf : WFEntry hd
    · have hne : e ∈ tl := by
        cases he with
        | head => exact absurd hwf hbad
        | tail _ h2 => exact h2
      obtain ⟨msg, hm⟩ := ih hne
      refine ⟨msg, ?_⟩
      show (displayEntry hd).bind _ = _
      rw [displayEntry_ok_of_wf hd hwf, hm]
      rfl
    · refine ⟨"There is no \x27rank\x27、\x27name\x27 or \x27specialist\x27 in results", ?_⟩
      show (displayEntry hd).bind _ = _
      rw [displayEntry_error_of_not_wf hd hwf]
      rfl

/-- **C1** (code-bug evidence): the arity check of `forward` is a no-op —
`arity_check` accepts a one-element list — so no `InvalidInputError` (or
any error of the code's own) is raised by validation.  On the one-element
input the invocation still mutates the chat history and then dies with an
`IndexError` while unpacking, and on a *three*-element input the pipeline
runs to completion, performing all five external calls.  This contradicts
the spec's fail-fast contract at a concrete input. -/
theorem forward_arity_check_is_noop :
    arity_check ["a"] = .ok () ∧
    (forward envTriv st0 ["a"] true 10 3).2.2 = .error .indexError ∧
    (forward envTriv st0 ["a"] true 10 3).2.1 = [] ∧
    (forward envTriv st0 ["a"] true 10 3).1.chat_history = [(["a"], "user")] ∧
    (forward envTriv st0 ["a", "b", "c"] true 10 3).2.2 = .ok [] ∧
    (forward envTriv st0 ["a", "b", "c"] true 10 3).2.1 =
      [.analystCall, .embedCall, .searchCall, .recommenderCall,
       .explainerCall []] :=
  ⟨rfl, rfl, rfl, rfl, rfl, rfl⟩

/-- **C2 counterexample**: with a prior turn in the chat history, an
invocation with `reset = true` does *not* start from an empty history —
`forward` calls `self.reset()` with `clear` defaulting to false, so the
prior turn survives and the resulting history is not just the new turn. -/
theorem reset_true_keeps_history_cex :
    (forward envTriv sPrior ["a", "b"] true 2 3).1.chat_history =
      [(["x", "y"], "user"), (["a", "b"], "user")] ∧
    (forward envTriv sPrior ["a", "b"] true 2 3).1.chat_history ≠
      [(["a", "b"], "user")] :=
  ⟨rfl, by decide⟩

/-- **C2 (amended)**: `reset = true` resets `scratchpad`, `finished` and
`answer` before the turn executes but leaves the chat history intact, so
the state after the turn is the old history plus the appended user turn;
`reset = false` carries every field forward, with the same appended turn.
In both cases prior turns are preserved unchanged and in order. -/
theorem forward_reset_semantics (env : Env) (s : SessionState)
    (u : List String) (top_k num : Nat) :
    (forward env s u true top_k num).1 =
      { chat_history := s.chat_history ++ [(u, "user")], scratchpad := "",
        finished := false, answer := "", finish_attr := s.finish_attr } ∧
    (forward env s u false top_k num).1 =
      { s with chat_history := s.chat_history ++ [(u, "user")] } := by
  constructor
  · rw [forward_state_eq]; rfl
  · rw [forward_state_eq]; rfl

/-- **C7 counterexample**: `get_project_embedding` called on the empty
string returns an embedding vector instead of raising — the body performs
no validation — refuting the claimed `EncodingError` at the explicit input
`""` (tokenizer, model and normalization instantiated with concrete opaque
functions). -/
theorem get_project_embedding_empty_cex :
    get_project_embedding (fun _ => []) (fun v => v) (fun v => v) "" =
      .ok [] :=
  rfl

/-- **C7 (amended)**: `get_project_embedding` contains no emptiness or
tokenization check and no raise statement: for every tokenizer, model,
normalizer and input text — the empty string included — it returns a
vector, never an error. -/
theorem get_project_embedding_never_raises (tokenize : String → List Int)
    (modelRun normalize : List Int → List Int) (text : String) :
    ∃ v, get_project_embedding tokenize modelRun normalize text = .ok v :=
  ⟨normalize (modelRun (tokenize text)), rfl⟩

/-- **C8**: the Explainer never alters the already-computed return value:
replacing the Explainer by any other function leaves `forward`'s entire
result — final state, call trace, and the returned formatted-string list —
unchanged, because the returned list is computed by `display` from the
Recommender output before the Explainer is invoked and the Explainer's
output is only logged. -/
theorem forward_independent_of_explainer (env : Env)
    (f g : String → List RankedEntry → String) (s : SessionState)
    (u : List String) (doReset : Bool) (top_k num : Nat) :
    forward { env with explain := f } s u doReset top_k num =
      forward { env with explain := g } s u doReset top_k num :=
  rfl

/-- **C9**: `System.finish` assigns `True` to the instance attribute
`finish`, shadowing the method, and never touches `finished`: after a
successful call the `finished` flag is unchanged (still false when it was
false) and `is_finished` still reports the old value, while a second call
to `finish` on the same instance raises `TypeError` because the attribute
is no longer callable. -/
theorem finish_shadows_method (s : SessionState) (a b : String)
    (h : s.finish_attr = none) :
    ∃ s1 obs, callFinish s a = .ok (s1, obs) ∧
      s1.finished = s.finished ∧
      is_finished s1 = is_finished s ∧
      (s.finished = false → is_finished s1 = false) ∧
      callFinish s1 b = .error .typeError := by
  refine ⟨{ s with answer := a, finish_attr := some true },
    "ÁĽľšłäśČÄŤŅį: " ++ a, ?_, rfl, rfl, fun hf => hf, rfl⟩
  unfold callFinish
  rw [h]

/-- Witness for **C9** at a concrete fresh state. -/
theorem finish_shadows_method_witness :
    ∃ s1 obs, callFinish st0 "ans" = .ok (s1, obs) ∧
      s1.finished = st0.finished ∧
      is_finished s1 = is_finished st0 ∧
      (st0.finished = false → is_finished s1 = false) ∧
      callFinish s1 "again" = .error .typeError :=
  finish_shadows_method st0 "ans" "again" rfl

/-- `addDescEntry` succeeds on an element whose `name` key is present and
computes `attachDesc`. -/
theorem addDescEntry_ok (experts : List ExpertInfo) (e : RankedEntry)
    (h : e.name.isSome = true) :
    addDescEntry experts e = .ok (attachDesc experts e) := by
  cases en : e.name with
  | none => rw [en] at h; cases h
  | some n =>
    cases hd : dictLookup experts n <;>
      simp [addDescEntry, attachDesc, en, hd]

/-- The `add_description` loop succeeds when every element has its `name`
key; the result is the pointwise `attachDesc`. -/
theorem addDescList_ok (experts : List ExpertInfo) (l : List RankedEntry)
    (h : ∀ e ∈ l, e.name.isSome = true) :
    addDescList experts l = .ok (l.map (attachDesc experts)) := by
  induction l with
  | nil => rfl
  | cons hd tl ih =>
    show (addDescEntry experts hd).bind _ = _
    rw [addDescEntry_ok experts hd (h hd (by simp)),
      ih (fun e he => h e (by simp [he]))]
    rfl

/-- A row lookup succeeds on an in-range position and computes the total
lookup. -/
theorem lookupRow_ok (table : List ExpertRow) (hit : Int × Nat)
    (h : hit.2 < table.length) :
    lookupRow table hit = .ok (lookupRowTotal table hit) := by
  unfold lookupRow lookupRowTotal
  cases hg : table.get? hit.2 with
  | none =>
    rw [List.get?_eq_none] at hg
    omega
  | some row => rfl

/-- The recall row loop succeeds when every hit position is in range. -/
theorem recallRows_ok (table : List ExpertRow) (hits : List (Int × Nat))
    (h : ∀ x ∈ hits, x.2 < table.length) :
    recallRows table hits = .ok (hits.map (lookupRowTotal table)) := by
  induction hits with
  | nil => rfl
  | cons hd tl ih =>
    show (lookupRow table hd).bind _ = _
    rw [lookupRow_ok table hd (h hd (by simp)),
      ih (fun x hx => h x (by simp [hx]))]
    rfl

/-- On a two-element input, `recall` reduces to the row loop over the
index's hits for the embedded `"name:description"` text. -/
theorem recallExperts_eq (env : Env) (a b : String) (top_k : Nat) :
    recallExperts env [a, b] top_k =
      recallRows env.expertTable
        (env.search (env.normalize (env.modelRun (env.tokenize (a ++ ":" ++ b))))
          top_k) :=
  rfl

/-- `forward` on a two-element input, when every stage succeeds, returns
the displayed strings clamped to `num` and calls the Explainer with the
`add_description` output. -/
theorem forward_eq_of_ok (env : Env) (s : SessionState) (a b : String)
    (doReset : Bool) (top_k num : Nat) (experts : List ExpertInfo)
    (results : RecResults) (msgs : List String) (upd : List RankedEntry)
    (hre : recallExperts env [a, b] top_k = .ok experts)
    (hrec : env.recommend (env.projectAnalyst a b) experts = results)
    (hdisp : display results = .ok msgs)
    (hadd : add_description experts results num = .ok upd) :
    forward env s [a, b] doReset top_k num =
      (add_chat_history (if doReset then reset false s else s) [a, b] "user",
       [.analystCall, .embedCall, .searchCall, .recommenderCall,
        .explainerCall upd],
       .ok (msgs.take num)) := by
  unfold forward
  rw [arity_check_eq_ok]
  dsimp only
  rw [hre]
  simp only [List.get?]
  rw [hrec, hdisp, hadd]

/-- **C3**: a Recommender result with the `sorted_experts` key absent, or
with some element lacking `rank`, `name` or `specialist`, makes `display`
raise (`NotImplementedError` in the code — the error the spec's taxonomy
names `MalformedAgentOutputError`), and a `forward` invocation whose
Recommender produces such a result surfaces an error: no partial formatted
list ever reaches the caller. -/
theorem display_malformed_no_partial (results : RecResults)
    (h : Malformed results) :
    (∃ msg, display results = .error (.notImplementedError msg)) ∧
    ∀ env : Env, ∀ s u doReset top_k num,
      (∀ p ex, env.recommend p ex = results) →
      ∃ e2, (forward env s u doReset top_k num).2.2 = .error e2 := by
  have hdisp : ∃ msg, display results = .error (.notImplementedError msg) := by
    rcases h with hnone | ⟨es, hes, e, he, hbad⟩
    · refine ⟨"There is no \x27sorted_experts\x27 in results", ?_⟩
      unfold display
      rw [hnone]
    · obtain ⟨msg, hm⟩ := displayList_error_of_malformed es e he hbad
      refine ⟨msg, ?_⟩
      unfold display
      rw [hes]
      exact hm
  refine ⟨hdisp, ?_⟩
  intro env s u doReset top_k num hrec
  obtain ⟨msg, hm⟩ := hdisp
  unfold forward
  rw [arity_check_eq_ok]
  dsimp only
  split
  · split
    · exact ⟨_, rfl⟩
    · rw [hrec, hm]
      exact ⟨_, rfl⟩
  · exact ⟨_, rfl⟩

/-- Witness for **C3**: a concrete result whose only element lacks `rank`
makes `display` raise and makes a concrete `forward` invocation fail. -/
theorem display_malformed_no_partial_witness :
    (∃ msg, display resultsBad = .error (.notImplementedError msg)) ∧
    ∃ e2, (forward envBad st0 ["a", "b"] true 5 3).2.2 = .error e2 := by
  have hmal : Malformed resultsBad :=
    Or.inr ⟨[{ rank := none, name := some "A", specialist := some "X",
               description := none }], rfl,
      { rank := none, name := some "A", specialist := some "X",
        description := none }, by simp, by decide⟩
  have h := display_malformed_no_partial resultsBad hmal
  exact ⟨h.1, h.2 envBad st0 ["a", "b"] true 5 3 (fun _ _ => rfl)⟩

/-- **C4**: for a well-formed Recommender result with entry list `es` and
any `num`, `forward` returns exactly `min num es.length` formatted strings
— when `num` exceeds the available count the result is clamped to it — and
`add_description` hands the Explainer exactly the first
`min num es.length` ranked entries, with available descriptions
attached. -/
theorem forward_clamps_num (env : Env) (results : RecResults)
    (es : List RankedEntry) (a b : String) (s : SessionState)
    (doReset : Bool) (top_k num : Nat)
    (hres : results.sorted_experts = some es)
    (hwf : ∀ e ∈ es, WFEntry e)
    (hrec : ∀ p ex, env.recommend p ex = results)
    (hvalid : ∀ emb k, ∀ x ∈ env.search emb k, x.2 < env.expertTable.length) :
    ∃ experts l,
      recallExperts env [a, b] top_k = .ok experts ∧
      (forward env s [a, b] doReset top_k num).2.2 = .ok l ∧
      l.length = min num es.length ∧
      ((es.take num).map (attachDesc experts)).length = min num es.length ∧
      add_description experts results num =
        .ok ((es.take num).map (attachDesc experts)) ∧
      (forward env s [a, b] doReset top_k num).2.1 =
        [.analystCall, .embedCall, .searchCall, .recommenderCall,
         .explainerCall ((es.take num).map (attachDesc experts))] := by
  have hre : recallExperts env [a, b] top_k = .ok
      ((env.search (env.normalize (env.modelRun (env.tokenize (a ++ ":" ++ b))))
          top_k).map (lookupRowTotal env.expertTable)) := by
    rw [recallExperts_eq]
    exact recallRows_ok _ _ (fun x hx => hvalid _ _ x hx)
  have hdisp : display results = .ok (es.map displayEntryTotal) := by
    unfold display
    rw [hres]
    exact displayList_ok_of_wf es hwf
  have hadd : add_description
      ((env.search (env.normalize (env.modelRun (env.tokenize (a ++ ":" ++ b))))
          top_k).map (lookupRowTotal env.expertTable)) results num =
      .ok ((es.take num).map (attachDesc
        ((env.search (env.normalize (env.modelRun (env.tokenize (a ++ ":" ++ b))))
            top_k).map (lookupRowTotal env.expertTable)))) := by
    unfold add_description
    rw [hres]
    exact addDescList_ok _ _
      (fun e he => (hwf e (List.mem_of_mem_take he)).2.1)
  have hfwd := forward_eq_of_ok env s a b doReset top_k num _ results _ _
    hre (hrec _ _) hdisp hadd
  refine ⟨_, (es.map displayEntryTotal).take num, hre, ?_, ?_, ?_, hadd, ?_⟩
  · rw [hfwd]
  · simp [List.length_take]
  · simp [List.length_take]
  · rw [hfwd]

/-- Witness for **C4** at the spec's §8 scenario: two ranked entries,
`num = 1`. -/
theorem forward_clamps_num_witness :
    ∃ experts l,
      recallExperts envAB ["a", "b"] 5 = .ok experts ∧
      (forward envAB st0 ["a", "b"] true 5 1).2.2 = .ok l ∧
      l.length = min 1 entriesAB.length ∧
      ((entriesAB.take 1).map (attachDesc experts)).length =
        min 1 entriesAB.length ∧
      add_description experts resultsAB 1 =
        .ok ((entriesAB.take 1).map (attachDesc experts)) ∧
      (forward envAB st0 ["a", "b"] true 5 1).2.1 =
        [.analystCall, .embedCall, .searchCall, .recommenderCall,
         .explainerCall ((entriesAB.take 1).map (attachDesc experts))] :=
  forward_clamps_num envAB resultsAB entriesAB "a" "b" st0 true 5 1 rfl
    (by decide) (fun _ _ => rfl)
    (by intro emb k x hx; simp [envAB, envTriv] at hx)

/-- **C6 counterexample**: at the spec's §8 scenario element
`(rank 1, name "A", specialist "X")`, the string `display` produces is the
bold-label template `"**排名**: 1, **姓名**: A, **专业**: X  \n"`, which is
neither the claimed `"排名: 1, 姓名: A, 专业: X"` nor that template with
the permitted trailing `"  \n"`: the claimed field labels are not the
code's. -/
theorem display_template_cex :
    display ⟨some [⟨some 1, some "A", some "X", none⟩]⟩ =
      .ok [formatEntry 1 "A" "X"] ∧
    formatEntry 1 "A" "X" ≠ specClaimedTemplate 1 "A" "X" ∧
    formatEntry 1 "A" "X" ≠ specClaimedTemplateNL 1 "A" "X" :=
  ⟨rfl, by decide, by decide⟩

/-- **C6 (amended)**: every string returned for a well-formed result is of
the literal form `"**排名**: {rank}, **姓名**: {name}, **专业**:
{specialist}  \n"`, with the element's `rank`, `name` and `specialist`
interpolated, in order — Markdown-bold field labels and a trailing
`"  \n"` included. -/
theorem display_template_amended (es : List RankedEntry)
    (h : ∀ e ∈ es, WFEntry e) :
    display { sorted_experts := some es } = .ok (es.map displayEntryTotal) := by
  unfold display
  exact displayList_ok_of_wf es h

/-- Witness for **C6 (amended)** at the spec's §8 scenario entries. -/
theorem display_template_amended_witness :
    display { sorted_experts := some entriesAB } =
      .ok (entriesAB.map displayEntryTotal) :=
  display_template_amended entriesAB (by decide)

/-- **C10**: `add_description` performs no membership check against the
recalled candidate set: on a well-formed result it succeeds, returning the
first `num` entries pointwise updated by `attachDesc` — an entry whose
name is some candidate's `expert_name` gains that candidate's description,
and an entry matching no candidate is returned unchanged, with no
`description` key added and no error raised. -/
theorem add_description_no_membership_check (experts : List ExpertInfo)
    (es : List RankedEntry) (num : Nat)
    (h : ∀ e ∈ es, e.name.isSome = true) :
    add_description experts { sorted_experts := some es } num =
      .ok ((es.take num).map (attachDesc experts)) ∧
    (∀ n, dictLookup experts n = none ↔
      ∀ ex ∈ experts, ex.expert_name ≠ n) ∧
    (∀ e : RankedEntry, ∀ n, e.name = some n →
      dictLookup experts n = none → attachDesc experts e = e) ∧
    (∀ e : RankedEntry, ∀ n d, e.name = some n →
      dictLookup experts n = some d →
      attachDesc experts e = { e with description := some d }) := by
  refine ⟨?_, ?_, ?_, ?_⟩
  · unfold add_description
    exact addDescList_ok _ _ (fun e he => h e (List.mem_of_mem_take he))
  · intro n
    unfold dictLookup
    rw [Option.map_eq_none', List.find?_eq_none]
    constructor
    · intro hf ex hex
      have := hf ex (List.mem_reverse.mpr hex)
      simpa using this
    · intro hf ex hex
      simpa using hf ex (List.mem_reverse.mp hex)
  · intro e n hen hnone
    simp [attachDesc, hen, hnone]
  · intro e n d hen hsome
    simp [attachDesc, hen, hsome]

/-- Witness for **C10**: candidates hold only expert "A"; the ranked
entries name "A" and "B".  The call succeeds; "A" gains the candidate's
description and "B" passes through untouched. -/
theorem add_description_no_membership_check_witness :
    add_description expertsW { sorted_experts := some entriesAB } 2 =
      .ok ((entriesAB.take 2).map (attachDesc expertsW)) ∧
    (∀ n, dictLookup expertsW n = none ↔
      ∀ ex ∈ expertsW, ex.expert_name ≠ n) ∧
    (∀ e : RankedEntry, ∀ n, e.name = some n →
      dictLookup expertsW n = none → attachDesc expertsW e = e) ∧
    (∀ e : RankedEntry, ∀ n d, e.name = some n →
      dictLookup expertsW n = some d →
      attachDesc expertsW e = { e with description := some d }) :=
  add_description_no_membership_check expertsW entriesAB 2 (by decide)

/-- A total row lookup always carries the hit's similarity score. -/
theorem lookupRowTotal_sim (table : List ExpertRow) (hit : Int × Nat) :
    (lookupRowTotal table hit).similarity = hit.1 := by
  unfold lookupRowTotal
  cases table.get? hit.2 <;> rfl

/-- A total row lookup at an in-range position carries that row's
`expert_id`. -/
theorem lookupRowTotal_id (table : List ExpertRow) (hit : Int × Nat)
    (h : hit.2 < table.length) :
    (lookupRowTotal table hit).expert_id =
      (table.get ⟨hit.2, h⟩).expert_id := by
  unfold lookupRowTotal
  rw [List.get?_eq_get h]

/-- The recall row loop preserves the index contract: same length as the
hit list, similarity sequence equal to the score sequence, and pairwise
distinct `expert_id`s whenever the hit positions are distinct and the
table's `expert_id` column has no duplicates. -/
theorem recallRows_props (table : List ExpertRow) (hits : List (Int × Nat))
    (hvalid : ∀ x ∈ hits, x.2 < table.length)
    (hsort : (hits.map Prod.fst).Pairwise (fun x y => x ≥ y))
    (hnodup : (hits.map Prod.snd).Nodup)
    (hids : (table.map ExpertRow.expert_id).Nodup) :
    ∃ l, recallRows table hits = .ok l ∧
      l.length = hits.length ∧
      (l.map ExpertInfo.similarity).Pairwise (fun x y => x ≥ y) ∧
      (l.map ExpertInfo.expert_id).Nodup := by
  have hg : ∀ (i : Nat) (hi : i < table.length),
      (table.map ExpertRow.expert_id).get ⟨i, by simpa using hi⟩ =
        (table.get ⟨i, hi⟩).expert_id := by
    intro i hi
    simp [List.get_eq_getElem, List.getElem_map]
  refine ⟨_, recallRows_ok table hits hvalid, by simp, ?_, ?_⟩
  · rw [List.map_map]
    have hcmp : hits.map (ExpertInfo.similarity ∘ lookupRowTotal table) =
        hits.map Prod.fst :=
      List.map_congr_left (fun x _ => lookupRowTotal_sim table x)
    rw [hcmp]
    exact hsort
  · rw [List.map_map]
    refine List.Nodup.map_on ?_ (List.Nodup.of_map Prod.snd hnodup)
    intro x hx y hy hxy
    have hix := hvalid x hx
    have hiy := hvalid y hy
    have hxy2 : (table.map ExpertRow.expert_id).get ⟨x.2, by simpa using hix⟩ =
        (table.map ExpertRow.expert_id).get ⟨y.2, by simpa using hiy⟩ := by
      rw [hg x.2 hix, hg y.2 hiy,
        ← lookupRowTotal_id table x hix, ← lookupRowTotal_id table y hiy]
      exact hxy
    have hfin := List.nodup_iff_injective_get.mp hids hxy2
    exact List.inj_on_of_nodup_map hnodup hx hy (congrArg Fin.val hfin)

/-- **C5**: under the index contract — scores non-increasing, at most
`top_k` hits, pairwise-distinct hit positions in range — and a table whose
`expert_id` column has no duplicates, `recall` succeeds and returns a
candidate list of length ≤ `top_k` whose similarity values are
non-increasing and whose `expert_id` values are pairwise distinct. -/
theorem recall_ordering (env : Env) (a b : String) (top_k : Nat)
    (hsort : ∀ emb,
      ((env.search emb top_k).map Prod.fst).Pairwise (fun x y => x ≥ y))
    (hlen : ∀ emb, (env.search emb top_k).length ≤ top_k)
    (hnodup : ∀ emb, ((env.search emb top_k).map Prod.snd).Nodup)
    (hvalid : ∀ emb, ∀ x ∈ env.search emb top_k,
      x.2 < env.expertTable.length)
    (hids : (env.expertTable.map ExpertRow.expert_id).Nodup) :
    ∃ l, recallExperts env [a, b] top_k = .ok l ∧
      l.length ≤ top_k ∧
      (l.map ExpertInfo.similarity).Pairwise (fun x y => x ≥ y) ∧
      (l.map ExpertInfo.expert_id).Nodup := by
  obtain ⟨l, hok, hlen2, hs, hn⟩ := recallRows_props env.expertTable
    (env.search (env.normalize (env.modelRun (env.tokenize (a ++ ":" ++ b))))
      top_k)
    (hvalid _) (hsort _) (hnodup _) hids
  refine ⟨l, ?_, ?_, hs, hn⟩
  · rw [recallExperts_eq]
    exact hok
  · rw [hlen2]
    exact hlen _

/-- Witness for **C5**: the two-row table with a search returning scores
`[9, 5]` at positions `[0, 1]` and `top_k = 2`. -/
theorem recall_ordering_witness :
    ∃ l, recallExperts envRec5 ["a", "b"] 2 = .ok l ∧
      l.length ≤ 2 ∧
      (l.map ExpertInfo.similarity).Pairwise (fun x y => x ≥ y) ∧
      (l.map ExpertInfo.expert_id).Nodup := by
  refine recall_ordering envRec5 "a" "b" 2 (fun emb => ?_) (fun emb => ?_)
    (fun emb => ?_) (fun emb => ?_) (by decide)
  · change List.Pairwise (fun x y => x ≥ y)
      (List.map Prod.fst [((9 : Int), (0 : Nat)), (5, 1)])
    decide
  · change ([((9 : Int), (0 : Nat)), (5, 1)]).length ≤ 2
    decide
  · change (List.map Prod.snd [((9 : Int), (0 : Nat)), (5, 1)]).Nodup
    decide
  · change ∀ x ∈ [((9 : Int), (0 : Nat)), (5, 1)], x.2 < 2
    decide

end ExpertRec
